import Mathlib

/-!
Verification of the debate-orchestration and knowledge-extraction engine
(`backend/app`): a shallow embedding, in Lean 4, of the credential rotation
pool (`core/config.py`), the retry/backoff wrappers (`agents/base_agent.py`,
`agents/enhanced_debate.py`), the schema normalizers
(`agents/cartographer.py`, `agents/enhanced_debate.py`), the debate
orchestrators (`agents/enhanced_debate.py`, `agents/debate_orchestrator.py`)
and the Neo4j persistence upsert (`core/neo4j_client.py`), together with
theorems settling the stated properties.

External effects (the LLM client, `time.sleep`, key rotation visible through
the shared pool) are modelled by outcome traces and explicit action lists;
`json.loads` is modelled by an abstract parse function passed as a parameter.
-/

/-! ## Data model (`core/schemas.py`) -/

/-- `NodeType` enum of `core/schemas.py`. -/
inductive NodeType
  | concept
  | technique
  | risk
  | defense
  | person
  | book
  | chapter
  | outcome
deriving DecidableEq

/-- `EdgeType` enum of `core/schemas.py`. -/
inductive EdgeType
  | leads_to
  | prevents
  | causes
  | counters
  | requires
  | part_of
  | related_to
  | mentioned_in
  | uses
  | exploits
  | enables
  | contradicts
  | supports
deriving DecidableEq

/-- `GraphNode` pydantic model of `core/schemas.py`. The `properties` dict is
modelled as an association list. -/
structure GraphNode where
  id : String
  name : String
  type : NodeType
  description : Option String
  source_book : Option String
  source_chapter : Option String
  properties : List (String × String)
deriving DecidableEq

/-- `GraphEdge` pydantic model of `core/schemas.py`; `weight` (a Python float
used only as a constant `1.0`) is modelled as a rational. -/
structure GraphEdge where
  source : String
  target : String
  type : EdgeType
  weight : ℚ
  description : Option String
  source_book : Option String
deriving DecidableEq

/-- The `.value` of a `NodeType` member (its string payload). -/
def nodeTypeValue : NodeType → String
  | .concept => "concept"
  | .technique => "technique"
  | .risk => "risk"
  | .defense => "defense"
  | .person => "person"
  | .book => "book"
  | .chapter => "chapter"
  | .outcome => "outcome"

/-- The `.value` of an `EdgeType` member (its string payload). -/
def edgeTypeValue : EdgeType → String
  | .leads_to => "leads_to"
  | .prevents => "prevents"
  | .causes => "causes"
  | .counters => "counters"
  | .requires => "requires"
  | .part_of => "part_of"
  | .related_to => "related_to"
  | .mentioned_in => "mentioned_in"
  | .uses => "uses"
  | .exploits => "exploits"
  | .enables => "enables"
  | .contradicts => "contradicts"
  | .supports => "supports"

/-! ## Raw extractor output

The extractor LLM returns JSON dicts.  A raw field value is either a string
or some non-string JSON value (`notStr`); a missing key is `none`.  Python
string operations (`.replace`, `.lower`) and pydantic `str` fields raise on
non-string values, which the conversion code catches and turns into a skip. -/

/-- A raw JSON field value: a string, or any non-string value. -/
inductive RawValue
  | str (s : String)
  | notStr
deriving DecidableEq

/-- A raw node dict as accessed by the two `convert_to_schema` functions:
only the keys `id`, `name`, `type`, `description` are read. -/
structure RawNode where
  id : Option RawValue
  name : Option RawValue
  type : Option RawValue
  description : Option RawValue
deriving DecidableEq

/-- A raw edge dict as accessed by the two `convert_to_schema` functions:
`cartographer.py` reads the key `relation`, `enhanced_debate.py` reads the
key `type`; both read `source` and `target`. -/
structure RawEdge where
  source : Option RawValue
  target : Option RawValue
  type : Option RawValue
  relation : Option RawValue
deriving DecidableEq

/-! ## Python string primitives (character-level model)

`str.lower()` is modelled on its ASCII fragment (the only one the claims
quantify over): characters `A`–`Z` are shifted by 32, all others are kept. -/

/-- Model of Python `str.lower()` on a single character (ASCII fragment). -/
def pyToLower (c : Char) : Char :=
  if 65 ≤ c.toNat ∧ c.toNat ≤ 90 then Char.ofNat (c.toNat + 32) else c

/-- One character of Python `.replace(' ', '_')`. -/
def pyReplaceSpace (c : Char) : Char :=
  if c = ' ' then '_' else c

/-- `s.replace(' ', '_').lower()` on a character list, as in
`cartographer.py` (`convert_to_schema`, id/source/target derivation). -/
def slugChars (l : List Char) : List Char :=
  (l.map pyReplaceSpace).map pyToLower

/-- The canonical-id derivation of `cartographer.py`:
`.replace(' ', '_').lower()`. -/
def pySlug (s : String) : String :=
  String.mk (slugChars s.data)

/-- Model of Python `str.lower()` on a string. -/
def pyLowerStr (s : String) : String :=
  String.mk (s.data.map pyToLower)

/-- Substring test on character lists (Python `pat in s`). -/
def hasSubChars (pat : List Char) : List Char → Bool
  | [] => pat.isEmpty
  | c :: rest => pat.isPrefixOf (c :: rest) || hasSubChars pat rest

/-- Python `pat in s` on strings. -/
def pyIn (pat s : String) : Bool :=
  hasSubChars pat.data s.data

/-- Helper for Python `str.split(sep)` (nonempty `sep`), with explicit fuel
(one unit per consumed character) so the definition is structural. -/
def pySplitGo (sep : List Char) : Nat → List Char → List Char → List (List Char)
  | 0, l, acc => [acc.reverse ++ l]
  | _ + 1, [], acc => [acc.reverse]
  | fuel + 1, c :: rest, acc =>
    if sep.isPrefixOf (c :: rest) then
      acc.reverse :: pySplitGo sep fuel ((c :: rest).drop sep.length) []
    else
      pySplitGo sep fuel rest (c :: acc)

/-- Python `s.split(sep)` for a nonempty separator. -/
def pySplit (sep s : String) : List String :=
  (pySplitGo sep.data (s.data.length + 1) s.data []).map String.mk

/-- Python `s.strip()` (whitespace from both ends). -/
def pyStrip (s : String) : String :=
  String.mk (((s.data.dropWhile Char.isWhitespace).reverse.dropWhile Char.isWhitespace).reverse)

/-! ## Schema normalizer of `agents/cartographer.py` (`convert_to_schema`) -/

/-- The `type_map` dict of `CartographerAgent.convert_to_schema`. -/
def cartographerTypeMap : List (String × NodeType) :=
  [("concept", .concept), ("technique", .technique), ("risk", .risk),
   ("defense", .defense), ("person", .person), ("outcome", .outcome)]

/-- The `edge_map` dict of `CartographerAgent.convert_to_schema`. -/
def cartographerEdgeMap : List (String × EdgeType) :=
  [("leads_to", .leads_to), ("prevents", .prevents), ("causes", .causes),
   ("uses", .uses), ("counters", .counters), ("requires", .requires),
   ("related_to", .related_to), ("exploits", .exploits)]

/-- `dict.get(label, default)` against a type dictionary, where the looked-up
raw value may be a non-string (absent from a string-keyed dict). -/
def lookupNodeType (dict : List (String × NodeType)) (v : RawValue) : NodeType :=
  match v with
  | .str s => (dict.lookup s).getD NodeType.concept
  | .notStr => NodeType.concept

/-- `dict.get(label, default)` against an edge dictionary. -/
def lookupEdgeType (dict : List (String × EdgeType)) (v : RawValue) : EdgeType :=
  match v with
  | .str s => (dict.lookup s).getD EdgeType.related_to
  | .notStr => EdgeType.related_to

/-- One node of `CartographerAgent.convert_to_schema`: the body of the
`try`/`except` loop over `nodes`. `none` models a raised-and-caught
exception (the record is skipped): `.replace` on a non-string id raises
`AttributeError`, and pydantic rejects non-string `name`/`description`. -/
def cartographerConvertNode (source_book : Option String) (n : RawNode) :
    Option GraphNode :=
  let node_type := lookupNodeType cartographerTypeMap (n.type.getD (.str "concept"))
  match n.id.getD (n.name.getD (.str "")) with
  | .notStr => none
  | .str rawId =>
    match n.name.getD (n.id.getD (.str "unnamed")) with
    | .notStr => none
    | .str nm =>
      match n.description with
      | some .notStr => none
      | some (.str d) => some ⟨pySlug rawId, nm, node_type, some d, source_book, none, []⟩
      | none => some ⟨pySlug rawId, nm, node_type, none, source_book, none, []⟩

/-- One edge of `CartographerAgent.convert_to_schema`: the body of the
`try`/`except` loop over `edges`. -/
def cartographerConvertEdge (source_book : Option String) (e : RawEdge) :
    Option GraphEdge :=
  let edge_type := lookupEdgeType cartographerEdgeMap (e.relation.getD (.str "related_to"))
  match e.source.getD (.str "") with
  | .notStr => none
  | .str src =>
    match e.target.getD (.str "") with
    | .notStr => none
    | .str tgt => some ⟨pySlug src, pySlug tgt, edge_type, 1, none, source_book⟩

/-- `CartographerAgent.convert_to_schema` (`agents/cartographer.py`). -/
def CartographerAgent.convert_to_schema (nodes : List RawNode) (edges : List RawEdge)
    (source_book : Option String) : List GraphNode × List GraphEdge :=
  (nodes.filterMap (cartographerConvertNode source_book),
   edges.filterMap (cartographerConvertEdge source_book))

/-! ## Schema normalizer of `agents/enhanced_debate.py`
(`AnalystAgent.convert_to_schema`) -/

/-- The `type_map` dict of `AnalystAgent.convert_to_schema`. -/
def analystTypeMap : List (String × NodeType) :=
  [("concept", .concept), ("technique", .technique), ("risk", .risk),
   ("defense", .defense), ("outcome", .outcome), ("insight", .concept)]

/-- The `edge_type_map` dict of `AnalystAgent.convert_to_schema`. -/
def analystEdgeMap : List (String × EdgeType) :=
  [("causes", .causes), ("prevents", .prevents), ("enables", .enables),
   ("contradicts", .contradicts), ("supports", .related_to),
   ("relates_to", .related_to)]

/-- One node of `AnalystAgent.convert_to_schema` (no slugging here: the id is
stored as provided). `none` models a raised-and-caught pydantic error. -/
def analystConvertNode (source : String) (n : RawNode) : Option GraphNode :=
  let node_type := lookupNodeType analystTypeMap (n.type.getD (.str "concept"))
  match n.id.getD (.str ""), n.name.getD (n.id.getD (.str "")), n.description with
  | .str i, .str nm, none => some ⟨i, nm, node_type, none, some source, none, []⟩
  | .str i, .str nm, some (.str d) => some ⟨i, nm, node_type, some d, some source, none, []⟩
  | _, _, _ => none

/-- One edge of `AnalystAgent.convert_to_schema` (raw key `type`, not
`relation`; defaults `weight=1.0`, no description, no source book). -/
def analystConvertEdge (e : RawEdge) : Option GraphEdge :=
  let edge_type := lookupEdgeType analystEdgeMap (e.type.getD (.str "relates_to"))
  match e.source.getD (.str ""), e.target.getD (.str "") with
  | .str src, .str tgt => some ⟨src, tgt, edge_type, 1, none, none⟩
  | _, _ => none

/-- `AnalystAgent.convert_to_schema` (`agents/enhanced_debate.py`). -/
def AnalystAgent.convert_to_schema (raw_nodes : List RawNode) (raw_edges : List RawEdge)
    (source : String) : List GraphNode × List GraphEdge :=
  (raw_nodes.filterMap (analystConvertNode source),
   raw_edges.filterMap analystConvertEdge)

/-! ## Credential rotation pool (`core/config.py`, `APIKeyManager`) -/

/-- `APIKeyManager` state: the configured keys, the rotation index, and the
`failed_keys` set (modelled as a duplicate-free-by-insertion list). -/
structure APIKeyManager where
  keys : List String
  current_index : Nat
  failed_keys : List String
deriving DecidableEq

/-- `APIKeyManager.get_key`: raises `ValueError` iff no keys are configured;
otherwise selects `available[current_index % len(available)]`, first clearing
the exclusion set (a mutation, hence the returned state) when every key is
excluded. -/
def APIKeyManager.get_key (m : APIKeyManager) :
    Except String (String × APIKeyManager) :=
  if hk : m.keys = [] then
    .error "No API keys configured!"
  else
    let available_keys := m.keys.filter (fun k => ¬ k ∈ m.failed_keys)
    if ha : available_keys = [] then
      -- Reset failed keys and try again
      .ok (m.keys.get ⟨m.current_index % m.keys.length,
             Nat.mod_lt _ (List.length_pos.mpr hk)⟩,
           { m with failed_keys := [] })
    else
      .ok (available_keys.get ⟨m.current_index % available_keys.length,
             Nat.mod_lt _ (List.length_pos.mpr ha)⟩,
           m)

/-- `APIKeyManager.rotate`: advance the index. -/
def APIKeyManager.rotate (m : APIKeyManager) : APIKeyManager :=
  { m with current_index := m.current_index + 1 }

/-- `APIKeyManager.mark_failed`: add to the exclusion set, then rotate. -/
def APIKeyManager.mark_failed (m : APIKeyManager) (key : String) : APIKeyManager :=
  APIKeyManager.rotate
    { m with failed_keys :=
        if key ∈ m.failed_keys then m.failed_keys else key :: m.failed_keys }

/-- A sequence of `mark_failed` calls, applied left to right. -/
def APIKeyManager.applyMarks (m : APIKeyManager) (ops : List String) : APIKeyManager :=
  ops.foldl APIKeyManager.mark_failed m

/-! ## Retry/backoff wrapper (`agents/base_agent.py`, `BaseAgent.invoke`)

Each loop iteration's interaction with the LLM client is an element of an
outcome trace; side effects (`settings.rotate_api_key()` + client rebuild,
`time.sleep`) are recorded as actions. -/

/-- One client call: the returned text, or the raised exception's message. -/
inductive ClientOutcome
  | success (text : String)
  | failure (msg : String)
deriving DecidableEq

/-- An observable side effect of the retry loops. -/
inductive SideEffect
  | rotateKeyRebuildClient
  | sleep (seconds : Nat)
deriving DecidableEq

/-- Result of `BaseAgent.invoke`: returned text, a propagated (non-retryable)
exception, or the terminal `RateLimitError` after exhausting retries. -/
inductive InvokeResult
  | ok (text : String)
  | raised (msg : String)
  | rateLimitExhausted
deriving DecidableEq

/-- Failure classes of `BaseAgent.invoke`'s `except` branch. -/
inductive ErrClass
  | rateLimited
  | transient
  | nonRetryable
deriving DecidableEq

/-- The classification in `BaseAgent.invoke`: lower-case the message, then
test `rate`/`limit`/`quota` (rate limit), else `timeout`/`connection`
(transient), else non-retryable. -/
def classifyBaseError (msg : String) : ErrClass :=
  let error_msg := pyLowerStr msg
  if pyIn "rate" error_msg || pyIn "limit" error_msg || pyIn "quota" error_msg then
    .rateLimited
  else if pyIn "timeout" error_msg || pyIn "connection" error_msg then
    .transient
  else
    .nonRetryable

/-- The `for attempt in range(max_retries)` loop of `BaseAgent.invoke`; the
trace holds one outcome per remaining attempt. -/
def BaseAgent.invokeLoop (attempt : Nat) :
    List ClientOutcome → InvokeResult × List SideEffect
  | [] => (.rateLimitExhausted, [])
  | .success t :: _ => (.ok t, [])
  | .failure m :: rest =>
    match classifyBaseError m with
    | .rateLimited =>
      let r := BaseAgent.invokeLoop (attempt + 1) rest
      (r.1, .rotateKeyRebuildClient :: .sleep (2 ^ attempt) :: r.2)
    | .transient =>
      let r := BaseAgent.invokeLoop (attempt + 1) rest
      (r.1, .sleep (2 ^ attempt) :: r.2)
    | .nonRetryable => (.raised m, [])

/-- `BaseAgent.invoke(prompt, max_retries)` over an outcome trace. -/
def BaseAgent.invoke (outcomes : List ClientOutcome) (max_retries : Nat) :
    InvokeResult × List SideEffect :=
  BaseAgent.invokeLoop 0 (outcomes.take max_retries)

/-! ## Debater retry loop (`agents/enhanced_debate.py`, `ReaderAgent.respond`) -/

/-- The rate-limit test of `ReaderAgent.respond` and
`AnalystAgent.analyze_and_extract`: `"429" in str(e) or "quota" in
str(e).lower()`. -/
def readerIsRateLimit (msg : String) : Bool :=
  pyIn "429" msg || pyIn "quota" (pyLowerStr msg)

/-- The sentinel returned by `ReaderAgent.respond` when all retries are
exhausted. -/
def readerSentinel (name : String) : String :=
  "[" ++ name ++ " ไม่สามารถตอบได้]"

/-- The retry loop of `ReaderAgent.respond`: rate-limit errors rotate the key
(rebuilding the client) and sleep 2s, any other exception is re-raised, and
falling off the loop returns the sentinel string. -/
def ReaderAgent.respondLoop (name : String) :
    List ClientOutcome → Except String String × List SideEffect
  | [] => (.ok (readerSentinel name), [])
  | .success t :: _ => (.ok t, [])
  | .failure m :: rest =>
    if readerIsRateLimit m then
      let r := ReaderAgent.respondLoop name rest
      (r.1, .rotateKeyRebuildClient :: .sleep 2 :: r.2)
    else
      (.error m, [])

/-- `ReaderAgent.respond(topic, history, max_retries)` over an outcome
trace. -/
def ReaderAgent.respond (name : String) (outcomes : List ClientOutcome)
    (max_retries : Nat) : Except String String × List SideEffect :=
  ReaderAgent.respondLoop name (outcomes.take max_retries)

/-! ## Analyst extraction (`agents/enhanced_debate.py`,
`AnalystAgent.analyze_and_extract`) -/

/-- The fenced-block location of `analyze_and_extract`:
`content.split("```json")[1].split("```")[0]` if a ```json fence is present,
else the same with ```` ``` ````, else the whole response. -/
def extractPayload (content : String) : String :=
  if pyIn "```json" content then
    ((pySplit "```" ((pySplit "```json" content).getD 1 "")).getD 0 "")
  else if pyIn "```" content then
    ((pySplit "```" ((pySplit "```" content).getD 1 "")).getD 0 "")
  else
    content

/-- One iteration of the `analyze_and_extract` retry loop: the LLM's response
text, or a raised exception's message. -/
inductive AnalystAttempt
  | response (content : String)
  | exn (msg : String)
deriving DecidableEq

/-- The progressive backoff of `analyze_and_extract`:
`wait_time = (attempt + 1) * 15`. -/
def analystRateLimitWait (attempt : Nat) : Nat :=
  (attempt + 1) * 15

/-- The retry loop of `AnalystAgent.analyze_and_extract`. `parseJson` models
`json.loads` plus the `data.get('nodes'/'edges', [])` accesses: `none` is a
`JSONDecodeError` (retry); a rate-limited exception sleeps progressively and
rotates the key; any other exception returns `([], [])` at once; falling off
the loop returns `([], [])`. -/
def AnalystAgent.analyzeLoop
    (parseJson : String → Option (List RawNode × List RawEdge)) (attempt : Nat) :
    List AnalystAttempt → Except String (List RawNode × List RawEdge) × List SideEffect
  | [] => (.ok ([], []), [])
  | .response content :: rest =>
    match parseJson (pyStrip (extractPayload content)) with
    | some data => (.ok data, [])
    | none => AnalystAgent.analyzeLoop parseJson (attempt + 1) rest
  | .exn m :: rest =>
    if readerIsRateLimit m then
      let r := AnalystAgent.analyzeLoop parseJson (attempt + 1) rest
      (r.1, .sleep (analystRateLimitWait attempt) :: .rotateKeyRebuildClient :: r.2)
    else
      (.ok ([], []), [])

/-- `AnalystAgent.analyze_and_extract(topic, conversation, max_retries)` over
an attempt trace. -/
def AnalystAgent.analyze_and_extract
    (parseJson : String → Option (List RawNode × List RawEdge))
    (attempts : List AnalystAttempt) (max_retries : Nat) :
    Except String (List RawNode × List RawEdge) × List SideEffect :=
  AnalystAgent.analyzeLoop parseJson 0 (attempts.take max_retries)

/-- Does this attempt yield a successfully parsed payload?  (`false` for
every attempt means the extractor output stayed malformed / failing.) -/
def attemptParses (parseJson : String → Option (List RawNode × List RawEdge))
    (a : AnalystAttempt) : Bool :=
  match a with
  | .response content => (parseJson (pyStrip (extractPayload content))).isSome
  | .exn _ => false

/-! ## Debate system (`agents/enhanced_debate.py`, `EnhancedDebateSystem`) -/

/-- One conversation entry: the `{"agent": ..., "content": ...}` dict
appended to `conversation`. -/
structure Turn where
  agent : String
  content : String
deriving DecidableEq

/-- The attacker's display name (`"🔴 แมน"`). -/
def attackerAgentName : String := "🔴 แมน"

/-- The defender's display name (`"🟢 Defender"`). -/
def defenderAgentName : String := "🟢 Defender"

/-- The strategist's display name (`"🟣 Strategist"`). -/
def strategistAgentName : String := "🟣 Strategist"

/-- The analyst's display name (`"🔵 Analyst"`). -/
def analystAgentName : String := "🔵 Analyst"

/-- A debater: from the topic and the conversation so far, one turn's text
(`ReaderAgent.respond` is total on rate-limit-only failures, returning the
sentinel). -/
abbrev Responder := String → List Turn → String

/-- The analyst capability: from the topic and a conversation, either raw
nodes/edges or a propagated exception. -/
abbrev Analyzer := String → List Turn → Except String (List RawNode × List RawEdge)

/-- The turns appended by one round of `run_debate` / `stream_debate`:
attacker sees the conversation so far, defender additionally sees the
attacker's new turn, and the optional strategist sees both. -/
def roundTurns (attacker defender strategist : Responder) (enable_strategist : Bool)
    (topic : String) (conversation : List Turn) : List Turn :=
  let t1 : Turn := ⟨attackerAgentName, attacker topic conversation⟩
  let t2 : Turn := ⟨defenderAgentName, defender topic (conversation ++ [t1])⟩
  if enable_strategist then
    [t1, t2, ⟨strategistAgentName, strategist topic (conversation ++ [t1, t2])⟩]
  else
    [t1, t2]

/-- The `for round_num in range(rounds)` loop of `run_debate`, building the
conversation. -/
def runRounds (attacker defender strategist : Responder) (enable_strategist : Bool)
    (topic : String) : Nat → List Turn → List Turn
  | 0, conversation => conversation
  | n + 1, conversation =>
    runRounds attacker defender strategist enable_strategist topic n
      (conversation ++ roundTurns attacker defender strategist enable_strategist topic conversation)

/-- The dict returned by `EnhancedDebateSystem.run_debate`. -/
structure DebateResult where
  topic : String
  rounds : Nat
  conversation : List Turn
  nodes : List GraphNode
  edges : List GraphEdge
  raw_nodes : List RawNode
  raw_edges : List RawEdge
deriving DecidableEq

/-- `EnhancedDebateSystem.run_debate(topic, rounds, delay)`: run all rounds,
then extract once over the whole conversation and normalize with source
label `"Debate: " + topic`.  An exception from the analyst propagates. -/
def EnhancedDebateSystem.run_debate (attacker defender strategist : Responder)
    (enable_strategist : Bool) (analyze : Analyzer) (topic : String) (rounds : Nat) :
    Except String DebateResult :=
  let conversation := runRounds attacker defender strategist enable_strategist topic rounds []
  match analyze topic conversation with
  | .error e => .error e
  | .ok (raw_nodes, raw_edges) =>
    let converted := AnalystAgent.convert_to_schema raw_nodes raw_edges ("Debate: " ++ topic)
    .ok ⟨topic, rounds, conversation, converted.1, converted.2, raw_nodes, raw_edges⟩

/-- The events yielded by `EnhancedDebateSystem.stream_debate`. -/
inductive DebateEvent
  | start (topic : String)
  | info (round_num : Nat)
  | thinking (agent : String)
  | message (agent : String) (content : String)
  | graphUpdate (nodes : List GraphNode) (edges : List GraphEdge)
  | complete (conversation : List Turn)
deriving DecidableEq

/-- The per-turn `thinking`/`message` event pairs of one streamed round. -/
def turnEvents (ts : List Turn) : List DebateEvent :=
  (ts.map (fun t => [DebateEvent.thinking t.agent, DebateEvent.message t.agent t.content])).flatten

/-- The round loop of `stream_debate`: each round appends its turns, runs the
analyst on the whole conversation so far, and yields one `graph_update`;
an analyst exception would propagate out of the generator. -/
def streamRounds (attacker defender strategist : Responder) (enable_strategist : Bool)
    (analyze : Analyzer) (topic : String) :
    Nat → Nat → List Turn → Except String (List DebateEvent × List Turn)
  | 0, _, conversation => .ok ([], conversation)
  | n + 1, round_num, conversation =>
    let ts := roundTurns attacker defender strategist enable_strategist topic conversation
    let conversation' := conversation ++ ts
    match analyze topic conversation' with
    | .error e => .error e
    | .ok (raw_nodes, raw_edges) =>
      let converted := AnalystAgent.convert_to_schema raw_nodes raw_edges ("Debate: " ++ topic)
      match streamRounds attacker defender strategist enable_strategist analyze topic
          n (round_num + 1) conversation' with
      | .error e => .error e
      | .ok (evs, conversationF) =>
        .ok (DebateEvent.info round_num :: turnEvents ts
              ++ DebateEvent.thinking analystAgentName
              :: DebateEvent.graphUpdate converted.1 converted.2 :: evs,
             conversationF)

/-- `EnhancedDebateSystem.stream_debate(topic, rounds, delay)`: `start`,
the per-round events, then `complete` with the final conversation. -/
def EnhancedDebateSystem.stream_debate (attacker defender strategist : Responder)
    (enable_strategist : Bool) (analyze : Analyzer) (topic : String) (rounds : Nat) :
    Except String (List DebateEvent) :=
  match streamRounds attacker defender strategist enable_strategist analyze topic
      rounds 0 [] with
  | .error e => .error e
  | .ok (evs, conversation) =>
    .ok (DebateEvent.start topic :: evs ++ [DebateEvent.complete conversation])

/-- The `graph_update` payloads of an event stream, in order. -/
def graphUpdates (evs : List DebateEvent) : List (List GraphNode × List GraphEdge) :=
  evs.filterMap fun e =>
    match e with
    | .graphUpdate ns es => some (ns, es)
    | _ => none

/-! ## Batch modes (`EnhancedDebateSystem.run_batch_debates`,
`DebateOrchestrator.auto_debate_top_topics`)

Each topic either completes a debate, contributing its normalized nodes and
edges, or raises (any exception): the `try`/`except` in both loops logs and
`continue`s. -/

/-- The per-topic outcome inside a batch loop. -/
inductive TopicOutcome
  | ok (nodes : List GraphNode) (edges : List GraphEdge)
  | raised (msg : String)
deriving DecidableEq

/-- The shared accumulator loop of `run_batch_debates` and
`auto_debate_top_topics`: `all_nodes.extend(...)` / `all_edges.extend(...)`
on success, `continue` on exception. -/
def batchAccumulate : List TopicOutcome → List GraphNode × List GraphEdge
  | [] => ([], [])
  | .ok ns es :: rest =>
    let r := batchAccumulate rest
    (ns ++ r.1, es ++ r.2)
  | .raised _ :: rest => batchAccumulate rest

/-- `EnhancedDebateSystem.run_batch_debates` over per-topic outcomes. -/
def EnhancedDebateSystem.run_batch_debates (outcomes : List TopicOutcome) :
    List GraphNode × List GraphEdge :=
  batchAccumulate outcomes

/-- `DebateOrchestrator.auto_debate_top_topics` over per-topic outcomes
(the same accumulator loop, over `debate_topic` sessions). -/
def DebateOrchestrator.auto_debate_top_topics (outcomes : List TopicOutcome) :
    List GraphNode × List GraphEdge :=
  batchAccumulate outcomes

/-- The nodes of a completed topic (`none` for a raised topic). -/
def topicNodes : TopicOutcome → Option (List GraphNode)
  | .ok ns _ => some ns
  | .raised _ => none

/-- The edges of a completed topic (`none` for a raised topic). -/
def topicEdges : TopicOutcome → Option (List GraphEdge)
  | .ok _ es => some es
  | .raised _ => none

/-! ## Delays (seconds, modelled as rationals since the Python values are
floats used only for `time.sleep`) -/

/-- `run_debate` / `debate_topic`: `time.sleep(delay)` after each turn. -/
def interTurnSleep (delay : ℚ) : ℚ := delay

/-- `run_batch_debates`: `time.sleep(delay * 2)` between topics. -/
def runBatchInterTopicSleep (delay : ℚ) : ℚ := delay * 2

/-- `auto_debate_top_topics`: `time.sleep(self.delay * 2)` between debates. -/
def autoDebateInterTopicSleep (delay : ℚ) : ℚ := delay * 2

/-- `DebateOrchestrator.__init__` default `delay_between_calls = 1.0`. -/
def debateOrchestratorDefaultDelay : ℚ := 1

/-- `run_batch_debates` default `delay: float = 2.0`. -/
def runBatchDebatesDefaultDelay : ℚ := 2

/-! ## Graph persistence (`core/neo4j_client.py`)

The Cypher store is modelled as lists of stored nodes and relationships.
`MERGE (a)-[r:RELATES {type: $type}]->(b)` matches a relationship by its
endpoints and `type` property: if one matches, `SET` updates the matched
relationships; otherwise a new relationship is created.  `MATCH` on a
missing endpoint yields zero rows, so the statement is a no-op. -/

/-- A stored `(:Node)` with the properties `create_node` sets. -/
structure StoredNode where
  id : String
  name : String
  type : String
  description : Option String
  source_book : Option String
  source_chapter : Option String
deriving DecidableEq

/-- A stored `[:RELATES]` relationship with the properties `create_edge`
sets; `type` is part of the MERGE pattern, the rest are `SET`. -/
structure StoredEdge where
  source : String
  target : String
  type : String
  weight : ℚ
  description : Option String
  source_book : Option String
deriving DecidableEq

/-- The Neo4j database contents. -/
structure GraphStore where
  nodes : List StoredNode
  edges : List StoredEdge
deriving DecidableEq

/-- Does a stored relationship match the MERGE pattern of `edge`? -/
def matchesEdgeKey (edge : GraphEdge) (r : StoredEdge) : Bool :=
  r.source == edge.source && r.target == edge.target && r.type == edgeTypeValue edge.type

/-- The `SET` clause of `create_edge` applied to a matched relationship. -/
def setEdgeProps (edge : GraphEdge) (r : StoredEdge) : StoredEdge :=
  { r with weight := edge.weight, description := edge.description,
           source_book := edge.source_book }

/-- `Neo4jClient.create_edge`: `MATCH` both endpoint nodes (no-op when one is
missing), then `MERGE` the relationship keyed by `(source, target, type)` and
`SET` its properties. -/
def Neo4jClient.create_edge (store : GraphStore) (edge : GraphEdge) : GraphStore :=
  if store.nodes.any (fun n => n.id == edge.source)
      && store.nodes.any (fun n => n.id == edge.target) then
    if store.edges.any (matchesEdgeKey edge) then
      let updated := store.edges.map fun r =>
        if matchesEdgeKey edge r then setEdgeProps edge r else r
      { store with edges := updated }
    else
      { store with edges := store.edges ++
          [⟨edge.source, edge.target, edgeTypeValue edge.type,
            edge.weight, edge.description, edge.source_book⟩] }
  else
    store

/-- `Neo4jClient.create_edges_batch`: `UNWIND` runs the `MATCH`/`MERGE`
statement once per list element, in order, each seeing prior changes. -/
def Neo4jClient.create_edges_batch (store : GraphStore) (edges : List GraphEdge) :
    GraphStore :=
  edges.foldl Neo4jClient.create_edge store

/-- The `SET` clause of `create_node` applied to a matched node. -/
def setNodeProps (node : GraphNode) (n : StoredNode) : StoredNode :=
  { n with name := node.name, type := nodeTypeValue node.type,
           description := node.description, source_book := node.source_book,
           source_chapter := node.source_chapter }

/-- `Neo4jClient.create_node`: `MERGE (n:Node {id: $id})` then `SET` the
remaining properties. -/
def Neo4jClient.create_node (store : GraphStore) (node : GraphNode) : GraphStore :=
  if store.nodes.any (fun n => n.id == node.id) then
    let updated := store.nodes.map fun n =>
      if n.id == node.id then setNodeProps node n else n
    { store with nodes := updated }
  else
    { store with nodes := store.nodes ++
        [⟨node.id, node.name, nodeTypeValue node.type,
          node.description, node.source_book, node.source_chapter⟩] }

/-- The number of stored relationships matching an edge's
`(source, target, type)` key. -/
def countEdgesWithKey (store : GraphStore) (edge : GraphEdge) : Nat :=
  (store.edges.filter (matchesEdgeKey edge)).length

/-! ## Helper lemmas: characters and slugs -/

/-- `Char.ofNat` round-trips on valid (below-surrogate) code points. -/
theorem toNat_ofNat_valid (n : Nat) (h : n < 0xd800) : (Char.ofNat n).toNat = n := by
  have hv : n.isValidChar := Or.inl h
  unfold Char.ofNat
  rw [dif_pos hv]
  simp [Char.toNat, Char.ofNatAux, UInt32.toNat, BitVec.toNat_ofNatLt]

/-- Lower-casing never yields an ASCII upper-case letter. -/
theorem pyToLower_not_upper (c : Char) :
    ¬ (65 ≤ (pyToLower c).toNat ∧ (pyToLower c).toNat ≤ 90) := by
  unfold pyToLower
  by_cases h : 65 ≤ c.toNat ∧ c.toNat ≤ 90
  · rw [if_pos h, toNat_ofNat_valid _ (by omega)]
    omega
  · rw [if_neg h]
    exact h

/-- Lower-casing a non-space character never yields a space. -/
theorem pyToLower_ne_space (c : Char) (h : c ≠ ' ') : pyToLower c ≠ ' ' := by
  unfold pyToLower
  by_cases hc : 65 ≤ c.toNat ∧ c.toNat ≤ 90
  · rw [if_pos hc]
    intro he
    have h1 := toNat_ofNat_valid (c.toNat + 32) (by omega)
    rw [he] at h1
    have h2 : (' ' : Char).toNat = 32 := rfl
    omega
  · rw [if_neg hc]
    exact h

/-- Lower-casing is idempotent. -/
theorem pyToLower_idem (c : Char) : pyToLower (pyToLower c) = pyToLower c := by
  unfold pyToLower
  by_cases h : 65 ≤ c.toNat ∧ c.toNat ≤ 90
  · rw [if_pos h]
    have h2 := toNat_ofNat_valid (c.toNat + 32) (by omega)
    rw [if_neg (by rw [h2]; omega)]
  · rw [if_neg h, if_neg h]

/-- Space replacement never yields a space. -/
theorem pyReplaceSpace_ne_space (c : Char) : pyReplaceSpace c ≠ ' ' := by
  unfold pyReplaceSpace
  by_cases h : c = ' '
  · rw [if_pos h]
    decide
  · rw [if_neg h]
    exact h

/-- Space replacement fixes non-space characters. -/
theorem pyReplaceSpace_eq_self (c : Char) (h : c ≠ ' ') : pyReplaceSpace c = c := by
  unfold pyReplaceSpace
  rw [if_neg h]

/-- Every character of a slug is a non-space, non-upper-case character. -/
theorem mem_slugChars_props (l : List Char) (c : Char) (hc : c ∈ slugChars l) :
    c ≠ ' ' ∧ ¬ (65 ≤ c.toNat ∧ c.toNat ≤ 90) := by
  unfold slugChars at hc
  rw [List.mem_map] at hc
  obtain ⟨b, hb, rfl⟩ := hc
  rw [List.mem_map] at hb
  obtain ⟨a, _, rfl⟩ := hb
  exact ⟨pyToLower_ne_space _ (pyReplaceSpace_ne_space a), pyToLower_not_upper _⟩

/-- The slug computation is idempotent on character lists. -/
theorem slugChars_idem (l : List Char) : slugChars (slugChars l) = slugChars l := by
  unfold slugChars
  simp only [List.map_map]
  apply List.map_congr_left
  intro a _
  show pyToLower (pyReplaceSpace (pyToLower (pyReplaceSpace a))) = pyToLower (pyReplaceSpace a)
  have h1 : pyToLower (pyReplaceSpace a) ≠ ' ' :=
    pyToLower_ne_space _ (pyReplaceSpace_ne_space a)
  rw [pyReplaceSpace_eq_self _ h1, pyToLower_idem]

/-- The canonical-id derivation is idempotent (hence deterministic under
re-application). -/
theorem pySlug_idem (s : String) : pySlug (pySlug s) = pySlug s := by
  unfold pySlug
  exact congrArg String.mk (slugChars_idem s.data)

/-- Any node emitted by the cartographer normalizer takes its id from the
slug of the raw `id` (with the raw `name`, then `''`, as fallbacks). -/
theorem cartographerConvertNode_id_eq (src : Option String) (n : RawNode) (g : GraphNode)
    (h : cartographerConvertNode src n = some g) :
    ∃ raw, n.id.getD (n.name.getD (.str "")) = .str raw ∧ g.id = pySlug raw := by
  rcases h1 : n.id.getD (n.name.getD (.str "")) with raw | _
  · rcases h2 : n.name.getD (n.id.getD (.str "unnamed")) with nm | _
    · rcases h3 : n.description with _ | v
      · simp only [cartographerConvertNode, h1, h2, h3] at h
        refine ⟨raw, rfl, ?_⟩
        injection h with h'
        rw [← h']
      · rcases v with d | _
        · simp only [cartographerConvertNode, h1, h2, h3] at h
          refine ⟨raw, rfl, ?_⟩
          injection h with h'
          rw [← h']
        · simp only [cartographerConvertNode, h1, h2, h3] at h
          exact Option.noConfusion h
    · simp only [cartographerConvertNode, h1, h2] at h
      exact Option.noConfusion h
  · simp only [cartographerConvertNode, h1] at h
    exact Option.noConfusion h

/-- C7: the cartographer normalizer derives the canonical id from the
provided id (or the name when the id is absent) by replacing spaces with
underscores and lower-casing; the result contains no space and no ASCII
upper-case letter, and the derivation is deterministic and idempotent. -/
theorem canonical_id_slug_properties (src : Option String) (n : RawNode) (g : GraphNode)
    (raw : String)
    (hid : n.id = some (.str raw) ∨ (n.id = none ∧ n.name = some (.str raw)))
    (hconv : cartographerConvertNode src n = some g) :
    g.id = pySlug raw ∧
    (∀ c ∈ g.id.data, c ≠ ' ' ∧ ¬ (65 ≤ c.toNat ∧ c.toNat ≤ 90)) ∧
    pySlug (pySlug raw) = pySlug raw := by
  obtain ⟨raw0, hraw0, hgid⟩ := cartographerConvertNode_id_eq src n g hconv
  have hr : raw0 = raw := by
    rcases hid with h | ⟨ha, hb⟩
    · rw [h] at hraw0
      simp only [Option.getD_some] at hraw0
      injection hraw0 with h'
      exact h'.symm
    · rw [ha, hb] at hraw0
      simp only [Option.getD_none, Option.getD_some] at hraw0
      injection hraw0 with h'
      exact h'.symm
  subst hr
  refine ⟨hgid, ?_, pySlug_idem raw0⟩
  intro c hc
  rw [hgid] at hc
  exact mem_slugChars_props _ c hc

/-- Witness for C7 at a concrete raw node: id `"My Topic X"` yields the slug
`"my_topic_x"`. -/
theorem canonical_id_slug_properties_witness :
    (⟨"my_topic_x", "My Topic X", NodeType.concept, none, none, none, []⟩ : GraphNode).id =
        pySlug "My Topic X" ∧
    (∀ c ∈ (⟨"my_topic_x", "My Topic X", NodeType.concept, none, none, none, []⟩ : GraphNode).id.data,
        c ≠ ' ' ∧ ¬ (65 ≤ c.toNat ∧ c.toNat ≤ 90)) ∧
    pySlug (pySlug "My Topic X") = pySlug "My Topic X" :=
  canonical_id_slug_properties none
    ⟨some (.str "My Topic X"), some (.str "My Topic X"), some (.str "concept"), none⟩
    ⟨"my_topic_x", "My Topic X", NodeType.concept, none, none, none, []⟩
    "My Topic X" (Or.inl rfl) (by decide)

/-! ## Credential pool lemmas and C2 -/

/-- `mark_failed` never changes the configured key list. -/
theorem applyMarks_keys (ops : List String) :
    ∀ m : APIKeyManager, (APIKeyManager.applyMarks m ops).keys = m.keys := by
  induction ops with
  | nil => intro m; rfl
  | cons op rest ih =>
    intro m
    show (APIKeyManager.applyMarks (m.mark_failed op) rest).keys = m.keys
    rw [ih]
    rfl

/-- When at least one key is configured, `get_key` succeeds and returns one
of the configured keys. -/
theorem get_key_mem_of_ne_nil (m : APIKeyManager) (h : m.keys ≠ []) :
    ∃ k m', m.get_key = .ok (k, m') ∧ k ∈ m.keys := by
  unfold APIKeyManager.get_key
  rw [dif_neg h]
  dsimp only
  split
  · exact ⟨_, _, rfl, List.get_mem _ _ _⟩
  · refine ⟨_, _, rfl, ?_⟩
    exact (List.mem_filter.mp (List.get_mem _ _ _)).1

/-- When every configured key has been marked failed, `get_key` clears the
exclusion set and still returns a configured key. -/
theorem get_key_reset_of_all_failed (m : APIKeyManager) (h : m.keys ≠ [])
    (hall : ∀ k ∈ m.keys, k ∈ m.failed_keys) :
    ∃ k, m.get_key = .ok (k, { m with failed_keys := [] }) ∧ k ∈ m.keys := by
  have hav : m.keys.filter (fun k => ¬ k ∈ m.failed_keys) = [] := by
    rw [List.filter_eq_nil_iff]
    intro a ha
    simp only [decide_not, Bool.not_eq_true', decide_eq_false_iff_not, not_not]
    exact hall a ha
  unfold APIKeyManager.get_key
  rw [dif_neg h]
  dsimp only
  split
  · exact ⟨_, rfl, List.get_mem _ _ _⟩
  · exact absurd hav (by assumption)

/-- `get_key` fails exactly when the pool holds zero keys. -/
theorem get_key_error_iff_nil (m : APIKeyManager) :
    m.get_key = .error "No API keys configured!" ↔ m.keys = [] := by
  constructor
  · intro h
    by_contra hne
    obtain ⟨k, m', hok, _⟩ := get_key_mem_of_ne_nil m hne
    rw [hok] at h
    exact Except.noConfusion h
  · intro h
    unfold APIKeyManager.get_key
    rw [dif_pos h]

/-- C2: for a pool with at least one credential, `get()` after any sequence
of `mark_failed` calls still returns one of the pool's credentials; when
every credential is excluded the exclusion set is cleared; `get()` errors
exactly when zero credentials are configured. -/
theorem credential_pool_liveness (m : APIKeyManager) (ops : List String) :
    (m.keys ≠ [] →
      ∃ k m', (APIKeyManager.applyMarks m ops).get_key = .ok (k, m') ∧ k ∈ m.keys) ∧
    ((∀ k ∈ m.keys, k ∈ m.failed_keys) → m.keys ≠ [] →
      ∃ k, m.get_key = .ok (k, { m with failed_keys := [] }) ∧ k ∈ m.keys) ∧
    (m.get_key = .error "No API keys configured!" ↔ m.keys = []) := by
  refine ⟨?_, fun hall hne => get_key_reset_of_all_failed m hne hall, get_key_error_iff_nil m⟩
  intro h
  have hkeys := applyMarks_keys ops m
  obtain ⟨k, m', hok, hmem⟩ :=
    get_key_mem_of_ne_nil (APIKeyManager.applyMarks m ops) (by rw [hkeys]; exact h)
  exact ⟨k, m', hok, hkeys ▸ hmem⟩

/-- Witness for C2: a two-credential pool, both marked failed in turn; the
next `get()` still returns one of the two credentials. -/
theorem credential_pool_liveness_witness :
    ∃ k m', (APIKeyManager.applyMarks ⟨["k1", "k2"], 0, []⟩ ["k1", "k2"]).get_key =
        .ok (k, m') ∧ k ∈ (⟨["k1", "k2"], 0, []⟩ : APIKeyManager).keys :=
  (credential_pool_liveness ⟨["k1", "k2"], 0, []⟩ ["k1", "k2"]).1 (by decide)

/-! ## Retry/backoff lemmas, C3 and C8 -/

/-- A trace of retryable failures (rate-limited or transient) exhausts the
loop into the terminal `RateLimitError`. -/
theorem invokeLoop_all_retryable_exhausts (l : List ClientOutcome)
    (h : ∀ o ∈ l, ∃ m, o = .failure m ∧ classifyBaseError m ≠ .nonRetryable) :
    ∀ attempt, (BaseAgent.invokeLoop attempt l).1 = .rateLimitExhausted := by
  induction l with
  | nil => intro _; rfl
  | cons o rest ih =>
    intro attempt
    obtain ⟨m, rfl, hcls⟩ := h _ (List.mem_cons_self _ _)
    have ihr := ih (fun o ho => h o (List.mem_cons_of_mem _ ho)) (attempt + 1)
    rcases hc : classifyBaseError m with _ | _ | _
    · simp only [BaseAgent.invokeLoop, hc]
      exact ihr
    · simp only [BaseAgent.invokeLoop, hc]
      exact ihr
    · exact absurd hc hcls

/-- C3: `invoke` returns the client's text on success; a rate-limit-class
message rotates the pool (rebuilding the client), sleeps `2^attempt` and
retries; a timeout/connection message sleeps and retries without rotating;
any other exception propagates immediately; an all-retryable trace ends in
the terminal `RateLimitError`; and the extraction agent's rate-limit path
sleeps the progressive `15s/30s/45s` schedule instead. -/
theorem invoke_failure_classification :
    (∀ (attempt : Nat) (t : String) (rest : List ClientOutcome),
       BaseAgent.invokeLoop attempt (.success t :: rest) = (.ok t, [])) ∧
    (∀ (attempt : Nat) (m : String) (rest : List ClientOutcome),
       classifyBaseError m = .rateLimited →
       BaseAgent.invokeLoop attempt (.failure m :: rest) =
         ((BaseAgent.invokeLoop (attempt + 1) rest).1,
          .rotateKeyRebuildClient :: .sleep (2 ^ attempt) ::
            (BaseAgent.invokeLoop (attempt + 1) rest).2)) ∧
    (∀ (attempt : Nat) (m : String) (rest : List ClientOutcome),
       classifyBaseError m = .transient →
       BaseAgent.invokeLoop attempt (.failure m :: rest) =
         ((BaseAgent.invokeLoop (attempt + 1) rest).1,
          .sleep (2 ^ attempt) :: (BaseAgent.invokeLoop (attempt + 1) rest).2)) ∧
    (∀ (attempt : Nat) (m : String) (rest : List ClientOutcome),
       classifyBaseError m = .nonRetryable →
       BaseAgent.invokeLoop attempt (.failure m :: rest) = (.raised m, [])) ∧
    (∀ (outcomes : List ClientOutcome) (max_retries : Nat),
       (∀ o ∈ outcomes, ∃ m, o = .failure m ∧ classifyBaseError m ≠ .nonRetryable) →
       (BaseAgent.invoke outcomes max_retries).1 = .rateLimitExhausted) ∧
    (∀ (parseJson : String → Option (List RawNode × List RawEdge))
       (attempt : Nat) (m : String) (rest : List AnalystAttempt),
       readerIsRateLimit m = true →
       AnalystAgent.analyzeLoop parseJson attempt (.exn m :: rest) =
         ((AnalystAgent.analyzeLoop parseJson (attempt + 1) rest).1,
          .sleep (analystRateLimitWait attempt) :: .rotateKeyRebuildClient ::
            (AnalystAgent.analyzeLoop parseJson (attempt + 1) rest).2)) ∧
    (∀ attempt, analystRateLimitWait attempt = 15 * (attempt + 1)) ∧
    analystRateLimitWait 0 = 15 ∧ analystRateLimitWait 1 = 30 ∧ analystRateLimitWait 2 = 45 := by
  refine ⟨fun _ _ _ => rfl, ?_, ?_, ?_, ?_, ?_, ?_, rfl, rfl, rfl⟩
  · intro attempt m rest h
    simp only [BaseAgent.invokeLoop, h]
  · intro attempt m rest h
    simp only [BaseAgent.invokeLoop, h]
  · intro attempt m rest h
    simp only [BaseAgent.invokeLoop, h]
  · intro outcomes max_retries h
    exact invokeLoop_all_retryable_exhausts _
      (fun o ho => h o (List.take_subset _ _ ho)) 0
  · intro parseJson attempt m rest h
    simp only [AnalystAgent.analyzeLoop, h, if_true]
  · intro attempt
    unfold analystRateLimitWait
    omega

/-- Witness for C3: concrete classified failures at attempt 0. -/
theorem invoke_failure_classification_witness :
    BaseAgent.invokeLoop 0 [.success "answer"] = (.ok "answer", []) ∧
    BaseAgent.invokeLoop 0 [.failure "429 Rate limit exceeded"] =
      ((BaseAgent.invokeLoop 1 []).1,
       .rotateKeyRebuildClient :: .sleep (2 ^ 0) :: (BaseAgent.invokeLoop 1 []).2) ∧
    BaseAgent.invokeLoop 0 [.failure "Connection reset"] =
      ((BaseAgent.invokeLoop 1 []).1, .sleep (2 ^ 0) :: (BaseAgent.invokeLoop 1 []).2) ∧
    BaseAgent.invokeLoop 0 [.failure "invalid request"] = (.raised "invalid request", []) ∧
    (BaseAgent.invoke [.failure "quota exceeded", .failure "timeout"] 2).1 =
      .rateLimitExhausted ∧
    AnalystAgent.analyzeLoop (fun _ => none) 1 [.exn "429"] =
      ((AnalystAgent.analyzeLoop (fun _ => none) 2 []).1,
       .sleep (analystRateLimitWait 1) :: .rotateKeyRebuildClient ::
         (AnalystAgent.analyzeLoop (fun _ => none) 2 []).2) := by
  have h := invoke_failure_classification
  refine ⟨h.1 0 "answer" [], ?_, ?_, ?_, ?_, ?_⟩
  · exact h.2.1 0 "429 Rate limit exceeded" [] (by decide)
  · exact h.2.2.1 0 "Connection reset" [] (by decide)
  · exact h.2.2.2.1 0 "invalid request" [] (by decide)
  · exact h.2.2.2.2.1 [.failure "quota exceeded", .failure "timeout"] 2
      (by intro o ho; fin_cases ho <;> exact ⟨_, rfl, by decide⟩)
  · exact h.2.2.2.2.2.1 (fun _ => none) 1 "429" [] (by decide)

/-- An all-rate-limited trace makes `ReaderAgent.respond` fall off the loop
and return the sentinel text. -/
theorem respondLoop_all_rate_limited (name : String) (l : List ClientOutcome)
    (h : ∀ o ∈ l, ∃ m, o = .failure m ∧ readerIsRateLimit m = true) :
    (ReaderAgent.respondLoop name l).1 = .ok (readerSentinel name) := by
  induction l with
  | nil => rfl
  | cons o rest ih =>
    obtain ⟨m, rfl, hm⟩ := h _ (List.mem_cons_self _ _)
    simp only [ReaderAgent.respondLoop, hm, if_true]
    exact ih (fun o ho => h o (List.mem_cons_of_mem _ ho))

/-- A message propagated out of `ReaderAgent.respond` is never
rate-limit-classified. -/
theorem respondLoop_error_not_rate_limited (name : String) (l : List ClientOutcome)
    (m : String) (h : (ReaderAgent.respondLoop name l).1 = .error m) :
    readerIsRateLimit m = false := by
  induction l with
  | nil => exact Except.noConfusion h
  | cons o rest ih =>
    rcases o with t | m'
    · exact Except.noConfusion h
    · by_cases hr : readerIsRateLimit m' = true
      · simp only [ReaderAgent.respondLoop, hr, if_true] at h
        exact ih h
      · simp only [ReaderAgent.respondLoop, hr, if_false] at h
        injection h with h'
        rw [← h']
        exact Bool.eq_false_iff.mpr hr

/-- C8: a debater's `respond` never propagates a rate-limit failure: when
every attempt fails rate-limited it returns the visible sentinel string
(an `.ok` value, not an exception), and any propagated exception is of a
non-rate-limit class. -/
theorem reader_sentinel_on_rate_limit (name : String) :
    (∀ (outcomes : List ClientOutcome) (max_retries : Nat),
       (∀ o ∈ outcomes, ∃ m, o = .failure m ∧ readerIsRateLimit m = true) →
       (ReaderAgent.respond name outcomes max_retries).1 = .ok (readerSentinel name)) ∧
    (∀ (outcomes : List ClientOutcome) (m : String),
       (ReaderAgent.respondLoop name outcomes).1 = .error m →
       readerIsRateLimit m = false) := by
  refine ⟨?_, respondLoop_error_not_rate_limited name⟩
  intro outcomes max_retries h
  exact respondLoop_all_rate_limited name _ (fun o ho => h o (List.take_subset _ _ ho))

/-- Witness for C8: three straight rate-limit failures yield the sentinel. -/
theorem reader_sentinel_on_rate_limit_witness :
    (ReaderAgent.respond "แมน"
        [.failure "429 Too Many Requests", .failure "Quota exceeded", .failure "429"] 3).1 =
      .ok (readerSentinel "แมน") :=
  (reader_sentinel_on_rate_limit "แมน").1
    [.failure "429 Too Many Requests", .failure "Quota exceeded", .failure "429"] 3
    (by intro o ho; fin_cases ho <;> exact ⟨_, rfl, by decide⟩)

/-! ## Analyst extraction lemmas and C4 -/

/-- The extraction loop never raises: every trace ends in an `.ok` payload. -/
theorem analyzeLoop_never_raises
    (parseJson : String → Option (List RawNode × List RawEdge))
    (l : List AnalystAttempt) :
    ∀ attempt, ∃ p, (AnalystAgent.analyzeLoop parseJson attempt l).1 = .ok p := by
  induction l with
  | nil => exact fun _ => ⟨([], []), rfl⟩
  | cons a rest ih =>
    intro attempt
    rcases a with content | m
    · rcases hp : parseJson (pyStrip (extractPayload content)) with _ | data
      · simpa only [AnalystAgent.analyzeLoop, hp] using ih (attempt + 1)
      · exact ⟨data, by simp only [AnalystAgent.analyzeLoop, hp]⟩
    · by_cases hr : readerIsRateLimit m = true
      · obtain ⟨p, hp⟩ := ih (attempt + 1)
        exact ⟨p, by simp only [AnalystAgent.analyzeLoop, hr, if_true]; exact hp⟩
      · exact ⟨([], []), by simp [AnalystAgent.analyzeLoop, hr]⟩

/-- If no attempt yields a parsable payload, the loop returns `([], [])`. -/
theorem analyzeLoop_malformed_empty
    (parseJson : String → Option (List RawNode × List RawEdge))
    (l : List AnalystAttempt)
    (h : ∀ a ∈ l, attemptParses parseJson a = false) :
    ∀ attempt, (AnalystAgent.analyzeLoop parseJson attempt l).1 = .ok ([], []) := by
  induction l with
  | nil => exact fun _ => rfl
  | cons a rest ih =>
    intro attempt
    have ihr := ih (fun a ha => h a (List.mem_cons_of_mem _ ha))
    rcases a with content | m
    · rcases hp : parseJson (pyStrip (extractPayload content)) with _ | data
      · simp only [AnalystAgent.analyzeLoop, hp]
        exact ihr (attempt + 1)
      · exfalso
        have hc := h _ (List.mem_cons_self _ _)
        simp [attemptParses, hp] at hc
    · by_cases hr : readerIsRateLimit m = true
      · simp only [AnalystAgent.analyzeLoop, hr, if_true]
        exact ihr (attempt + 1)
      · simp [AnalystAgent.analyzeLoop, hr]

/-- C4: the analyst's extraction never raises (every trace yields an `.ok`
payload); a trace of malformed outputs returns `([], [])` after the bounded
retries; with no fence the whole response is the payload; and a debate whose
extraction stays malformed still completes, with the full conversation and
zero new graph elements. -/
theorem extraction_never_aborts_debate :
    (∀ (parseJson : String → Option (List RawNode × List RawEdge))
       (attempt : Nat) (attempts : List AnalystAttempt),
       ∃ p, (AnalystAgent.analyzeLoop parseJson attempt attempts).1 = .ok p) ∧
    (∀ (parseJson : String → Option (List RawNode × List RawEdge))
       (attempts : List AnalystAttempt) (max_retries : Nat),
       (∀ a ∈ attempts, attemptParses parseJson a = false) →
       (AnalystAgent.analyze_and_extract parseJson attempts max_retries).1 = .ok ([], [])) ∧
    (∀ content : String, pyIn "```json" content = false → pyIn "```" content = false →
       extractPayload content = content) ∧
    (∀ (attacker defender strategist : Responder) (enable_strategist : Bool)
       (parseJson : String → Option (List RawNode × List RawEdge))
       (tr : List Turn → List AnalystAttempt) (topic : String)
       (rounds max_retries : Nat),
       (∀ conversation, ∀ a ∈ tr conversation, attemptParses parseJson a = false) →
       EnhancedDebateSystem.run_debate attacker defender strategist enable_strategist
           (fun _t c => (AnalystAgent.analyze_and_extract parseJson (tr c) max_retries).1)
           topic rounds =
         .ok ⟨topic, rounds,
              runRounds attacker defender strategist enable_strategist topic rounds [],
              [], [], [], []⟩) := by
  refine ⟨fun p attempt attempts => analyzeLoop_never_raises p attempts attempt, ?_, ?_, ?_⟩
  · intro parseJson attempts max_retries h
    exact analyzeLoop_malformed_empty parseJson _
      (fun a ha => h a (List.take_subset _ _ ha)) 0
  · intro content h1 h2
    unfold extractPayload
    rw [if_neg (by rw [h1]; exact Bool.false_ne_true), if_neg (by rw [h2]; exact Bool.false_ne_true)]
  · intro attacker defender strategist enable_strategist parseJson tr topic rounds max_retries h
    unfold EnhancedDebateSystem.run_debate
    dsimp only
    have hone : (AnalystAgent.analyze_and_extract parseJson
        (tr (runRounds attacker defender strategist enable_strategist topic rounds []))
        max_retries).1 = .ok ([], []) :=
      analyzeLoop_malformed_empty parseJson _
        (fun a ha => h _ a (List.take_subset _ _ ha)) 0
    rw [hone]
    rfl

/-- Witness for C4: one unfenced, unparseable response; the one-round debate
completes with the full conversation and no nodes or edges. -/
theorem extraction_never_aborts_debate_witness :
    EnhancedDebateSystem.run_debate (fun _ _ => "A") (fun _ _ => "B") (fun _ _ => "S") false
        (fun _t c => (AnalystAgent.analyze_and_extract (fun _ => none)
           ((fun _ => [AnalystAttempt.response "no json here"]) c) 3).1)
        "หัวข้อ" 1 =
      .ok ⟨"หัวข้อ", 1,
           runRounds (fun _ _ => "A") (fun _ _ => "B") (fun _ _ => "S") false "หัวข้อ" 1 [],
           [], [], [], []⟩ :=
  extraction_never_aborts_debate.2.2.2 (fun _ _ => "A") (fun _ _ => "B") (fun _ _ => "S")
    false (fun _ => none) (fun _ => [AnalystAttempt.response "no json here"]) "หัวข้อ" 1 3
    (fun _ => by intro a ha; fin_cases ha; rfl)

/-! ## Round/stream lemmas, C5 and C10 -/

/-- One round appends 3 turns with the strategist enabled, else 2. -/
theorem roundTurns_length (attacker defender strategist : Responder)
    (enable_strategist : Bool) (topic : String) (conversation : List Turn) :
    (roundTurns attacker defender strategist enable_strategist topic conversation).length =
      if enable_strategist then 3 else 2 := by
  cases enable_strategist <;> simp [roundTurns]

/-- The conversation grows by exactly `(3 or 2) * rounds` turns. -/
theorem runRounds_length (attacker defender strategist : Responder)
    (enable_strategist : Bool) (topic : String) :
    ∀ (n : Nat) (conversation : List Turn),
      (runRounds attacker defender strategist enable_strategist topic n conversation).length =
        conversation.length + (if enable_strategist then 3 else 2) * n := by
  intro n
  induction n with
  | zero => intro conversation; simp [runRounds]
  | succ n ih =>
    intro conversation
    show (runRounds attacker defender strategist enable_strategist topic n
        (conversation ++ roundTurns attacker defender strategist enable_strategist topic
          conversation)).length = _
    rw [ih, List.length_append, roundTurns_length, Nat.mul_succ]
    omega

/-- Unfolding a round from the far end: `n+1` rounds are `n` rounds plus one
round over the accumulated conversation. -/
theorem runRounds_succ_right (attacker defender strategist : Responder)
    (enable_strategist : Bool) (topic : String) :
    ∀ (n : Nat) (conversation : List Turn),
      runRounds attacker defender strategist enable_strategist topic (n + 1) conversation =
        runRounds attacker defender strategist enable_strategist topic n conversation ++
          roundTurns attacker defender strategist enable_strategist topic
            (runRounds attacker defender strategist enable_strategist topic n conversation) := by
  intro n
  induction n with
  | zero => intro conversation; rfl
  | succ n ih =>
    intro conversation
    show runRounds attacker defender strategist enable_strategist topic (n + 1)
        (conversation ++ roundTurns attacker defender strategist enable_strategist topic
          conversation) = _
    rw [ih]
    rfl

/-- Turn events contain no `graph_update`. -/
theorem turnEvents_no_graph_update (ts : List Turn) :
    graphUpdates (turnEvents ts) = [] := by
  induction ts with
  | nil => rfl
  | cons t rest ih =>
    simp only [turnEvents, List.map_cons, List.flatten_cons] at ih ⊢
    simp only [graphUpdates, List.filterMap_append, List.filterMap_cons] at ih ⊢
    simp only [ih]
    simp

/-- Master lemma for the streaming loop under a total analyst: the stream
succeeds, the final conversation equals the batch-mode conversation, and the
`graph_update` payloads are, in order, the normalized extraction of the full
conversation after each round. -/
theorem streamRounds_spec (attacker defender strategist : Responder)
    (enable_strategist : Bool) (analyze : Analyzer) (topic : String)
    (f : List Turn → List RawNode × List RawEdge)
    (hA : ∀ c, analyze topic c = .ok (f c)) :
    ∀ (n round_num : Nat) (conversation : List Turn),
      ∃ evs,
        streamRounds attacker defender strategist enable_strategist analyze topic
            n round_num conversation =
          .ok (evs,
            runRounds attacker defender strategist enable_strategist topic n conversation) ∧
        graphUpdates evs = (List.range n).map (fun j =>
          AnalystAgent.convert_to_schema
            (f (runRounds attacker defender strategist enable_strategist topic (j + 1)
                conversation)).1
            (f (runRounds attacker defender strategist enable_strategist topic (j + 1)
                conversation)).2
            ("Debate: " ++ topic)) := by
  intro n
  induction n with
  | zero => intro round_num conversation; exact ⟨[], rfl, rfl⟩
  | succ n ih =>
    intro round_num conversation
    obtain ⟨evs, hs, hg⟩ := ih (round_num + 1)
      (conversation ++ roundTurns attacker defender strategist enable_strategist topic
        conversation)
    refine ⟨DebateEvent.info round_num
        :: turnEvents (roundTurns attacker defender strategist enable_strategist topic
            conversation)
        ++ DebateEvent.thinking analystAgentName
        :: DebateEvent.graphUpdate
            (AnalystAgent.convert_to_schema
              (f (conversation ++ roundTurns attacker defender strategist enable_strategist
                  topic conversation)).1
              (f (conversation ++ roundTurns attacker defender strategist enable_strategist
                  topic conversation)).2
              ("Debate: " ++ topic)).1
            (AnalystAgent.convert_to_schema
              (f (conversation ++ roundTurns attacker defender strategist enable_strategist
                  topic conversation)).1
              (f (conversation ++ roundTurns attacker defender strategist enable_strategist
                  topic conversation)).2
              ("Debate: " ++ topic)).2
        :: evs, ?_, ?_⟩
    · show streamRounds attacker defender strategist enable_strategist analyze topic
          (n + 1) round_num conversation = _
      simp only [streamRounds, hA, hs]
      rfl
    · have hte := turnEvents_no_graph_update
        (roundTurns attacker defender strategist enable_strategist topic conversation)
      simp only [graphUpdates, List.filterMap_cons, List.filterMap_append] at hte hg ⊢
      rw [hte, hg]
      simp only [List.nil_append, List.cons_append]
      rw [List.range_succ_eq_map, List.map_cons, List.map_map]
      refine List.cons_eq_cons.mpr ⟨rfl, ?_⟩
      apply List.map_congr_left
      intro j _
      rfl

/-- C5: with a total analyst, a debate of `rounds` rounds reaches extraction
with exactly `2*rounds` turns (`3*rounds` with the strategist enabled) in the
conversation — and the extraction ran on exactly that conversation — while
streaming mode emits exactly one `graph_update` event per round. -/
theorem debate_turn_count_and_stream_updates (attacker defender strategist : Responder)
    (enable_strategist : Bool) (analyze : Analyzer) (topic : String) (rounds : Nat)
    (f : List Turn → List RawNode × List RawEdge)
    (hA : ∀ c, analyze topic c = .ok (f c)) :
    (∃ r, EnhancedDebateSystem.run_debate attacker defender strategist enable_strategist
          analyze topic rounds = .ok r ∧
       r.conversation.length = (if enable_strategist then 3 else 2) * rounds ∧
       analyze topic r.conversation = .ok (r.raw_nodes, r.raw_edges)) ∧
    (∃ evs, EnhancedDebateSystem.stream_debate attacker defender strategist
          enable_strategist analyze topic rounds = .ok evs ∧
       (graphUpdates evs).length = rounds) := by
  constructor
  · refine ⟨⟨topic, rounds,
        runRounds attacker defender strategist enable_strategist topic rounds [],
        (AnalystAgent.convert_to_schema
          (f (runRounds attacker defender strategist enable_strategist topic rounds [])).1
          (f (runRounds attacker defender strategist enable_strategist topic rounds [])).2
          ("Debate: " ++ topic)).1,
        (AnalystAgent.convert_to_schema
          (f (runRounds attacker defender strategist enable_strategist topic rounds [])).1
          (f (runRounds attacker defender strategist enable_strategist topic rounds [])).2
          ("Debate: " ++ topic)).2,
        (f (runRounds attacker defender strategist enable_strategist topic rounds [])).1,
        (f (runRounds attacker defender strategist enable_strategist topic rounds [])).2⟩,
      ?_, ?_, ?_⟩
    · unfold EnhancedDebateSystem.run_debate
      dsimp only
      rw [hA]
    · show (runRounds attacker defender strategist enable_strategist topic rounds []).length = _
      rw [runRounds_length]
      simp
    · show analyze topic
          (runRounds attacker defender strategist enable_strategist topic rounds []) = _
      rw [hA]
  · obtain ⟨evs, hs, hg⟩ := streamRounds_spec attacker defender strategist
      enable_strategist analyze topic f hA rounds 0 []
    refine ⟨DebateEvent.start topic :: evs ++
        [DebateEvent.complete
          (runRounds attacker defender strategist enable_strategist topic rounds [])],
      ?_, ?_⟩
    · unfold EnhancedDebateSystem.stream_debate
      rw [hs]
    · have hwrap : graphUpdates (DebateEvent.start topic :: evs ++
          [DebateEvent.complete
            (runRounds attacker defender strategist enable_strategist topic rounds [])]) =
          graphUpdates evs := by
        simp [graphUpdates, List.filterMap_append, List.filterMap_cons]
      rw [hwrap, hg, List.length_map, List.length_range]

/-- Witness for C5: two rounds with the strategist enabled give 6 turns and
2 `graph_update` events. -/
theorem debate_turn_count_and_stream_updates_witness :
    (∃ r, EnhancedDebateSystem.run_debate (fun _ _ => "a") (fun _ _ => "b") (fun _ _ => "s")
          true (fun _ _ => .ok ([], [])) "T" 2 = .ok r ∧
       r.conversation.length = (if true then 3 else 2) * 2 ∧
       (fun (_ : String) (_ : List Turn) =>
         (.ok ([], []) : Except String (List RawNode × List RawEdge))) "T" r.conversation =
           .ok (r.raw_nodes, r.raw_edges)) ∧
    (∃ evs, EnhancedDebateSystem.stream_debate (fun _ _ => "a") (fun _ _ => "b")
          (fun _ _ => "s") true (fun _ _ => .ok ([], [])) "T" 2 = .ok evs ∧
       (graphUpdates evs).length = 2) :=
  debate_turn_count_and_stream_updates (fun _ _ => "a") (fun _ _ => "b") (fun _ _ => "s")
    true (fun _ _ => .ok ([], [])) "T" 2 (fun _ => ([], [])) (fun _ => rfl)

/-- C10: under a total analyst, the `graph_update` payload emitted after
round `k+1` of a stream is the normalized extraction of the entire
conversation accumulated over rounds `1..k+1` — which extends the previous
rounds' transcript by the new round's turns — never of the new round's turns
alone, and the analyst input carries no previously extracted nodes/edges
(it is a function of the transcript only). -/
theorem stream_extraction_uses_full_transcript (attacker defender strategist : Responder)
    (enable_strategist : Bool) (analyze : Analyzer) (topic : String) (rounds k : Nat)
    (f : List Turn → List RawNode × List RawEdge)
    (hA : ∀ c, analyze topic c = .ok (f c)) (hk : k < rounds) :
    ∃ evs conversation,
      streamRounds attacker defender strategist enable_strategist analyze topic
          rounds 0 [] = .ok (evs, conversation) ∧
      (graphUpdates evs)[k]? = some
        (AnalystAgent.convert_to_schema
          (f (runRounds attacker defender strategist enable_strategist topic (k + 1) [])).1
          (f (runRounds attacker defender strategist enable_strategist topic (k + 1) [])).2
          ("Debate: " ++ topic)) ∧
      runRounds attacker defender strategist enable_strategist topic (k + 1) [] =
        runRounds attacker defender strategist enable_strategist topic k [] ++
          roundTurns attacker defender strategist enable_strategist topic
            (runRounds attacker defender strategist enable_strategist topic k []) ∧
      (runRounds attacker defender strategist enable_strategist topic (k + 1) []).length =
        (if enable_strategist then 3 else 2) * (k + 1) := by
  obtain ⟨evs, hs, hg⟩ := streamRounds_spec attacker defender strategist
    enable_strategist analyze topic f hA rounds 0 []
  refine ⟨evs, _, hs, ?_,
    runRounds_succ_right attacker defender strategist enable_strategist topic k [], ?_⟩
  · rw [hg, List.getElem?_map, List.getElem?_range hk]
    rfl
  · rw [runRounds_length]
    simp

/-- Witness for C10: with 2 rounds and `k = 1`, the second `graph_update`
is computed from the 4-turn transcript of both rounds. -/
theorem stream_extraction_uses_full_transcript_witness :
    ∃ evs conversation,
      streamRounds (fun _ _ => "a") (fun _ _ => "b") (fun _ _ => "s") false
          (fun _ _ => .ok ([], [])) "T" 2 0 [] = .ok (evs, conversation) ∧
      (graphUpdates evs)[1]? = some
        (AnalystAgent.convert_to_schema
          ((fun (_ : List Turn) => (([], []) : List RawNode × List RawEdge))
            (runRounds (fun _ _ => "a") (fun _ _ => "b") (fun _ _ => "s") false "T" 2 [])).1
          ((fun (_ : List Turn) => (([], []) : List RawNode × List RawEdge))
            (runRounds (fun _ _ => "a") (fun _ _ => "b") (fun _ _ => "s") false "T" 2 [])).2
          ("Debate: " ++ "T")) ∧
      runRounds (fun _ _ => "a") (fun _ _ => "b") (fun _ _ => "s") false "T" 2 [] =
        runRounds (fun _ _ => "a") (fun _ _ => "b") (fun _ _ => "s") false "T" 1 [] ++
          roundTurns (fun _ _ => "a") (fun _ _ => "b") (fun _ _ => "s") false "T"
            (runRounds (fun _ _ => "a") (fun _ _ => "b") (fun _ _ => "s") false "T" 1 []) ∧
      (runRounds (fun _ _ => "a") (fun _ _ => "b") (fun _ _ => "s") false "T" 2 []).length =
        (if false then 3 else 2) * 2 :=
  stream_extraction_uses_full_transcript (fun _ _ => "a") (fun _ _ => "b") (fun _ _ => "s")
    false (fun _ _ => .ok ([], [])) "T" 2 1 (fun _ => ([], [])) (fun _ => rfl) (by decide)

/-! ## Batch accumulator lemmas, C9 and the C1 counterexample -/

/-- The batch accumulator is exactly the concatenation of the completed
topics' nodes and edges, in order. -/
theorem batchAccumulate_eq_completed (outcomes : List TopicOutcome) :
    batchAccumulate outcomes =
      ((outcomes.filterMap topicNodes).flatten,
       (outcomes.filterMap topicEdges).flatten) := by
  induction outcomes with
  | nil => rfl
  | cons o rest ih =>
    cases o with
    | ok ns es => simp [batchAccumulate, topicNodes, topicEdges, List.filterMap_cons, ih]
    | raised m => simp [batchAccumulate, topicNodes, topicEdges, List.filterMap_cons, ih]

/-- C9: both batch modes process topics sequentially, skip any topic that
raises, and return exactly the concatenated nodes/edges of the completed
topics (a failed middle topic leaves its neighbours' data intact); the
inter-topic delay (`delay * 2`) strictly exceeds the inter-turn delay
(`delay`) whenever the configured delay is positive, as both defaults are. -/
theorem batch_skips_failures_and_delays :
    (∀ outcomes, EnhancedDebateSystem.run_batch_debates outcomes =
       ((outcomes.filterMap topicNodes).flatten,
        (outcomes.filterMap topicEdges).flatten)) ∧
    (∀ outcomes, DebateOrchestrator.auto_debate_top_topics outcomes =
       ((outcomes.filterMap topicNodes).flatten,
        (outcomes.filterMap topicEdges).flatten)) ∧
    (∀ (n1 : List GraphNode) (e1 : List GraphEdge) (m : String)
       (n3 : List GraphNode) (e3 : List GraphEdge),
       batchAccumulate [.ok n1 e1, .raised m, .ok n3 e3] = (n1 ++ n3, e1 ++ e3)) ∧
    (∀ d : ℚ, 0 < d →
       interTurnSleep d < runBatchInterTopicSleep d ∧
       interTurnSleep d < autoDebateInterTopicSleep d) ∧
    0 < debateOrchestratorDefaultDelay ∧ 0 < runBatchDebatesDefaultDelay := by
  refine ⟨fun o => batchAccumulate_eq_completed o, fun o => batchAccumulate_eq_completed o,
    ?_, ?_, by norm_num [debateOrchestratorDefaultDelay],
    by norm_num [runBatchDebatesDefaultDelay]⟩
  · intro n1 e1 m n3 e3
    simp [batchAccumulate]
  · intro d hd
    unfold interTurnSleep runBatchInterTopicSleep autoDebateInterTopicSleep
    constructor <;> linarith

/-- Witness for C9: positive default delay, and a concrete 3-topic batch
whose middle topic raises. -/
theorem batch_skips_failures_and_delays_witness :
    (interTurnSleep 2 < runBatchInterTopicSleep 2 ∧
     interTurnSleep 2 < autoDebateInterTopicSleep 2) ∧
    batchAccumulate
        [.ok [⟨"n1", "N1", .concept, none, none, none, []⟩] [],
         .raised "ValueError",
         .ok [⟨"n3", "N3", .concept, none, none, none, []⟩] []] =
      ([⟨"n1", "N1", .concept, none, none, none, []⟩] ++
         [⟨"n3", "N3", .concept, none, none, none, []⟩], [] ++ []) :=
  ⟨batch_skips_failures_and_delays.2.2.2.1 2 (by norm_num),
   batch_skips_failures_and_delays.2.2.1
     [⟨"n1", "N1", .concept, none, none, none, []⟩] [] "ValueError"
     [⟨"n3", "N3", .concept, none, none, none, []⟩] []⟩

/-- C1 counterexample: the run-level accumulator does NOT suppress an exact
duplicate edge — two debates each contributing the same `(a, a, causes)`
edge leave two copies in the accumulator, not one stored edge. -/
theorem run_accumulator_duplicates_kept :
    (batchAccumulate
        [.ok [] [⟨"a", "a", .causes, 1, none, none⟩],
         .ok [] [⟨"a", "a", .causes, 1, none, none⟩]]).2 =
      [⟨"a", "a", .causes, 1, none, none⟩, ⟨"a", "a", .causes, 1, none, none⟩] ∧
    ¬ ((batchAccumulate
        [.ok [] [⟨"a", "a", .causes, 1, none, none⟩],
         .ok [] [⟨"a", "a", .causes, 1, none, none⟩]]).2.length = 1) :=
  ⟨rfl, by decide⟩

/-! ## Persistence upsert lemmas and the amended C1 -/

/-- `SET` does not change the MERGE key of a stored relationship. -/
theorem matchesEdgeKey_setEdgeProps (e e' : GraphEdge) (r : StoredEdge) :
    matchesEdgeKey e (setEdgeProps e' r) = matchesEdgeKey e r := rfl

/-- The freshly created relationship matches its own key. -/
theorem matchesEdgeKey_new (e : GraphEdge) :
    matchesEdgeKey e ⟨e.source, e.target, edgeTypeValue e.type,
      e.weight, e.description, e.source_book⟩ = true := by
  simp [matchesEdgeKey]

/-- The persistence upsert is idempotent: re-upserting the same edge leaves
the store unchanged. -/
theorem create_edge_idem (s : GraphStore) (e : GraphEdge) :
    Neo4jClient.create_edge (Neo4jClient.create_edge s e) e =
      Neo4jClient.create_edge s e := by
  cases hP : (s.nodes.any (fun n => n.id == e.source)
      && s.nodes.any (fun n => n.id == e.target)) with
  | false =>
    have h1 : Neo4jClient.create_edge s e = s := by
      simp [Neo4jClient.create_edge, hP]
    rw [h1, h1]
  | true =>
    cases hM : s.edges.any (matchesEdgeKey e) with
    | true =>
      have h1 : Neo4jClient.create_edge s e =
          { s with edges := s.edges.map fun r =>
              if matchesEdgeKey e r then setEdgeProps e r else r } := by
        simp [Neo4jClient.create_edge, hP, hM]
      obtain ⟨r0, hr0, hk0⟩ := List.any_eq_true.mp hM
      have hM1 : (s.edges.map fun r =>
          if matchesEdgeKey e r then setEdgeProps e r else r).any (matchesEdgeKey e) = true := by
        refine List.any_eq_true.mpr ⟨_, List.mem_map_of_mem _ hr0, ?_⟩
        rw [if_pos hk0, matchesEdgeKey_setEdgeProps]
        exact hk0
      rw [h1]
      simp only [Neo4jClient.create_edge, hP, hM1, if_true]
      congr 1
      rw [List.map_map]
      apply List.map_congr_left
      intro r _
      by_cases hk : matchesEdgeKey e r = true
      · simp [Function.comp, hk, matchesEdgeKey_setEdgeProps, setEdgeProps]
      · simp [Function.comp, hk]
    | false =>
      have h1 : Neo4jClient.create_edge s e =
          { s with edges := s.edges ++
              [⟨e.source, e.target, edgeTypeValue e.type,
                e.weight, e.description, e.source_book⟩] } := by
        simp [Neo4jClient.create_edge, hP, hM]
      have hM1 : ((s.edges ++
          [(⟨e.source, e.target, edgeTypeValue e.type,
             e.weight, e.description, e.source_book⟩ : StoredEdge)]).any
              (matchesEdgeKey e)) = true := by
        exact List.any_eq_true.mpr
          ⟨(⟨e.source, e.target, edgeTypeValue e.type,
             e.weight, e.description, e.source_book⟩ : StoredEdge),
           List.mem_append_right _ (List.mem_singleton_self _), matchesEdgeKey_new e⟩
      rw [h1]
      simp only [Neo4jClient.create_edge, hP, hM1, if_true]
      congr 1
      rw [List.map_append]
      have hnone : ∀ r ∈ s.edges, matchesEdgeKey e r = false := by
        intro r hr
        exact Bool.eq_false_iff.mpr fun hk => by
          rw [List.any_eq_false] at hM
          exact hM r hr hk
      rw [show (s.edges.map fun r =>
            if matchesEdgeKey e r then setEdgeProps e r else r) = s.edges from
          List.map_congr_left (fun r hr => by rw [hnone r hr]; simp) |>.trans (List.map_id _)]
      simp [matchesEdgeKey_new, setEdgeProps]

/-- Inserting an edge whose key is absent (with both endpoints present)
stores exactly one relationship with that key. -/
theorem create_edge_new_count (s : GraphStore) (e : GraphEdge)
    (hsrc : s.nodes.any (fun n => n.id == e.source) = true)
    (htgt : s.nodes.any (fun n => n.id == e.target) = true)
    (h0 : countEdgesWithKey s e = 0) :
    countEdgesWithKey (Neo4jClient.create_edge s e) e = 1 := by
  have hfil : s.edges.filter (matchesEdgeKey e) = [] := by
    have := h0
    unfold countEdgesWithKey at this
    exact List.length_eq_zero.mp this
  have hM : s.edges.any (matchesEdgeKey e) = false := by
    rw [List.any_eq_false]
    intro r hr
    intro hk
    have := List.mem_filter.mpr ⟨hr, hk⟩
    rw [hfil] at this
    exact List.not_mem_nil _ this
  have hP : (s.nodes.any (fun n => n.id == e.source)
      && s.nodes.any (fun n => n.id == e.target)) = true := by
    rw [Bool.and_eq_true]
    exact ⟨hsrc, htgt⟩
  have h1 : Neo4jClient.create_edge s e =
      { s with edges := s.edges ++
          [⟨e.source, e.target, edgeTypeValue e.type,
            e.weight, e.description, e.source_book⟩] } := by
    simp [Neo4jClient.create_edge, hP, hM]
  rw [h1]
  unfold countEdgesWithKey
  simp [List.filter_append, hfil, matchesEdgeKey_new]

/-- Amended C1: duplicate suppression keyed by `(source, target, type)` holds
at the persistence upsert — upserting the same edge twice from a store
without it yields exactly one stored relationship, the two-element batch
behaves as the two sequential upserts, and the upsert is idempotent on any
store — while the run-level accumulator concatenates without dedup. -/
theorem persistence_upsert_dedups_by_key (s : GraphStore) (e : GraphEdge)
    (hsrc : s.nodes.any (fun n => n.id == e.source) = true)
    (htgt : s.nodes.any (fun n => n.id == e.target) = true)
    (h0 : countEdgesWithKey s e = 0) :
    countEdgesWithKey (Neo4jClient.create_edge (Neo4jClient.create_edge s e) e) e = 1 ∧
    Neo4jClient.create_edges_batch s [e, e] =
      Neo4jClient.create_edge (Neo4jClient.create_edge s e) e ∧
    (∀ (s' : GraphStore) (e' : GraphEdge),
      Neo4jClient.create_edge (Neo4jClient.create_edge s' e') e' =
        Neo4jClient.create_edge s' e') := by
  refine ⟨?_, rfl, create_edge_idem⟩
  rw [create_edge_idem]
  exact create_edge_new_count s e hsrc htgt h0

/-- Witness for the amended C1: a store holding node `a` and no edges; the
`(a, a, causes)` edge upserted twice is stored once. -/
theorem persistence_upsert_dedups_by_key_witness :
    countEdgesWithKey
        (Neo4jClient.create_edge
          (Neo4jClient.create_edge ⟨[⟨"a", "A", "concept", none, none, none⟩], []⟩
            ⟨"a", "a", .causes, 1, none, none⟩)
          ⟨"a", "a", .causes, 1, none, none⟩)
        ⟨"a", "a", .causes, 1, none, none⟩ = 1 :=
  (persistence_upsert_dedups_by_key ⟨[⟨"a", "A", "concept", none, none, none⟩], []⟩
    ⟨"a", "a", .causes, 1, none, none⟩ (by decide) (by decide) (by decide)).1

/-! ## Normalizer lemmas and C6 -/

/-- Any node emitted by the analyst normalizer carries the dictionary-mapped
(or defaulted) type of its raw `type` label. -/
theorem analystConvertNode_type (source : String) (n : RawNode) (g : GraphNode)
    (h : analystConvertNode source n = some g) :
    g.type = lookupNodeType analystTypeMap (n.type.getD (.str "concept")) := by
  obtain ⟨nid, nname, ntype, ndesc⟩ := n
  rcases nid with _ | (i | _) <;>
    rcases nname with _ | (nm | _) <;>
    rcases ndesc with _ | (d | _) <;>
    simp only [analystConvertNode, Option.getD_some, Option.getD_none] at h <;>
    first
      | exact Option.noConfusion h
      | (injection h with h'; rw [← h'])

/-- Any edge emitted by the analyst normalizer carries the dictionary-mapped
(or defaulted) type of its raw `type` label. -/
theorem analystConvertEdge_type (e : RawEdge) (g : GraphEdge)
    (h : analystConvertEdge e = some g) :
    g.type = lookupEdgeType analystEdgeMap (e.type.getD (.str "relates_to")) := by
  obtain ⟨esrc, etgt, etype, erel⟩ := e
  rcases esrc with _ | (s1 | _) <;>
    rcases etgt with _ | (t1 | _) <;>
    simp only [analystConvertEdge, Option.getD_some, Option.getD_none] at h <;>
    first
      | exact Option.noConfusion h
      | (injection h with h'; rw [← h'])

/-- Any node emitted by the cartographer normalizer carries the
dictionary-mapped (or defaulted) type of its raw `type` label. -/
theorem cartographerConvertNode_type (src : Option String) (n : RawNode) (g : GraphNode)
    (h : cartographerConvertNode src n = some g) :
    g.type = lookupNodeType cartographerTypeMap (n.type.getD (.str "concept")) := by
  obtain ⟨nid, nname, ntype, ndesc⟩ := n
  rcases nid with _ | (i | _) <;>
    rcases nname with _ | (nm | _) <;>
    rcases ndesc with _ | (d | _) <;>
    simp only [cartographerConvertNode, Option.getD_some, Option.getD_none] at h <;>
    first
      | exact Option.noConfusion h
      | (injection h with h'; rw [← h'])

/-- Any edge emitted by the cartographer normalizer carries the
dictionary-mapped (or defaulted) type of its raw `relation` label. -/
theorem cartographerConvertEdge_type (src : Option String) (e : RawEdge) (g : GraphEdge)
    (h : cartographerConvertEdge src e = some g) :
    g.type = lookupEdgeType cartographerEdgeMap (e.relation.getD (.str "related_to")) := by
  obtain ⟨esrc, etgt, etype, erel⟩ := e
  rcases esrc with _ | (s1 | _) <;>
    rcases etgt with _ | (t1 | _) <;>
    simp only [cartographerConvertEdge, Option.getD_some, Option.getD_none] at h <;>
    first
      | exact Option.noConfusion h
      | (injection h with h'; rw [← h'])

/-- C6 counterexample: a raw node missing every mandatory field (`id`,
`name`, `type`) is NOT skipped — the analyst normalizer emits a node with
defaulted id `""`, name `""` and type `concept`. -/
theorem normalizer_keeps_defaulted_records :
    AnalystAgent.convert_to_schema [⟨none, none, none, none⟩] [] "debate" =
      ([⟨"", "", NodeType.concept, none, some "debate", none, []⟩], []) ∧
    ¬ ((AnalystAgent.convert_to_schema [⟨none, none, none, none⟩] [] "debate").1 = []) :=
  ⟨rfl, by decide⟩

/-- Amended C6: unknown type/relation labels normalize to the documented
defaults (`concept` / `related_to`) in both normalizers and never raise;
records whose construction raises (non-string values where strings are
required) are skipped without aborting the batch; records merely missing
fields are normalized with defaulted values, not skipped; the output is a
(possibly shorter) list of well-typed nodes and edges. -/
theorem normalizer_defaults_and_skips :
    (∀ (raw_nodes : List RawNode) (raw_edges : List RawEdge) (source : String),
       (AnalystAgent.convert_to_schema raw_nodes raw_edges source).1.length ≤
           raw_nodes.length ∧
       (AnalystAgent.convert_to_schema raw_nodes raw_edges source).2.length ≤
           raw_edges.length) ∧
    (∀ (raw_nodes : List RawNode) (raw_edges : List RawEdge)
       (source_book : Option String),
       (CartographerAgent.convert_to_schema raw_nodes raw_edges source_book).1.length ≤
           raw_nodes.length ∧
       (CartographerAgent.convert_to_schema raw_nodes raw_edges source_book).2.length ≤
           raw_edges.length) ∧
    (∀ (s source : String) (n : RawNode) (g : GraphNode),
       analystTypeMap.lookup s = none → n.type = some (.str s) →
       analystConvertNode source n = some g → g.type = NodeType.concept) ∧
    (∀ (s : String) (e : RawEdge) (g : GraphEdge),
       analystEdgeMap.lookup s = none → e.type = some (.str s) →
       analystConvertEdge e = some g → g.type = EdgeType.related_to) ∧
    (∀ (s : String) (src : Option String) (n : RawNode) (g : GraphNode),
       cartographerTypeMap.lookup s = none → n.type = some (.str s) →
       cartographerConvertNode src n = some g → g.type = NodeType.concept) ∧
    (∀ (s : String) (src : Option String) (e : RawEdge) (g : GraphEdge),
       cartographerEdgeMap.lookup s = none → e.relation = some (.str s) →
       cartographerConvertEdge src e = some g → g.type = EdgeType.related_to) ∧
    (∀ (source : String) (pre post : List RawNode) (bad : RawNode)
       (raw_edges : List RawEdge),
       analystConvertNode source bad = none →
       AnalystAgent.convert_to_schema (pre ++ bad :: post) raw_edges source =
         AnalystAgent.convert_to_schema (pre ++ post) raw_edges source) ∧
    (∀ (src : Option String) (n : RawNode),
       n.id = some .notStr → cartographerConvertNode src n = none) := by
  refine ⟨fun _ _ _ => ⟨List.length_filterMap_le _ _, List.length_filterMap_le _ _⟩,
    fun _ _ _ => ⟨List.length_filterMap_le _ _, List.length_filterMap_le _ _⟩,
    ?_, ?_, ?_, ?_, ?_, ?_⟩
  · intro s source n g hlk ht hconv
    rw [analystConvertNode_type source n g hconv, ht]
    simp [lookupNodeType, hlk]
  · intro s e g hlk ht hconv
    rw [analystConvertEdge_type e g hconv, ht]
    simp [lookupEdgeType, hlk]
  · intro s src n g hlk ht hconv
    rw [cartographerConvertNode_type src n g hconv, ht]
    simp [lookupNodeType, hlk]
  · intro s src e g hlk ht hconv
    rw [cartographerConvertEdge_type src e g hconv, ht]
    simp [lookupEdgeType, hlk]
  · intro source pre post bad raw_edges hbad
    unfold AnalystAgent.convert_to_schema
    rw [List.filterMap_append, List.filterMap_append, List.filterMap_cons, hbad]
  · intro src n h
    simp [cartographerConvertNode, h]

/-- Witness for the amended C6: an unknown label `"weird_type"` defaults to
`concept`, and a node with a non-string id is skipped from the batch. -/
theorem normalizer_defaults_and_skips_witness :
    analystTypeMap.lookup "weird_type" = none ∧
    analystConvertNode "debate"
        ⟨some (.str "x"), some (.str "X"), some (.str "weird_type"), none⟩ =
      some ⟨"x", "X", NodeType.concept, none, some "debate", none, []⟩ ∧
    (⟨"x", "X", NodeType.concept, none, some "debate", none, []⟩ : GraphNode).type =
      NodeType.concept ∧
    AnalystAgent.convert_to_schema
        ([] ++ (⟨some .notStr, none, none, none⟩ : RawNode) :: []) [] "debate" =
      AnalystAgent.convert_to_schema ([] ++ []) [] "debate" :=
  ⟨by decide, by decide,
   normalizer_defaults_and_skips.2.2.1 "weird_type" "debate"
     ⟨some (.str "x"), some (.str "X"), some (.str "weird_type"), none⟩
     ⟨"x", "X", NodeType.concept, none, some "debate", none, []⟩
     (by decide) rfl (by decide),
   normalizer_defaults_and_skips.2.2.2.2.2.2.1 "debate" [] []
     ⟨some .notStr, none, none, none⟩ [] (by decide)⟩
